import Mathlib

/-!
Shallow embedding of the etl-pipeline repository's warehouse-merge and
country-code reconciliation engine (src/src/extract/cloudflare.py and
src/network_data_etl/etl/transform/processors.py), with theorems settling
the frozen claims about it.

Conventions of the embedding:
* Decoded JSON string fields are `Option String` (`none` = absent or JSON
  null, which Python's `dict.get` conflates); where Python distinguishes
  key *presence* from the stored value (the `"k" in d` test and
  `d.get(k, default)`), a field is `Option (Option String)`: the outer
  layer is key presence, the inner the possibly-null value.
* Python truthiness on strings (`if s:`) is `truthy`: present and not `""`.
* The external country-identity service (pycountry) is a parameter:
  `lookup : String → Option String` for fuzzy name→alpha2 search,
  `toA3 : String → Option String` for alpha2→alpha3,
  `nameOf : String → Option String` for alpha3→name.
* pandas DataFrames are lists of typed rows. The CSV re-read feeding each
  regional stage is modeled explicitly (`readBackRow`): `pd.read_csv`
  parses any stored string in its default `na_values` list — among them
  `"NA"`, Namibia's canonical code — as missing, and `to_csv` writes a
  missing cell back as empty, so the round trip is lossy on that code.
  Column ordering and the run-wide timestamp column are presentation-level.
-/

set_option autoImplicit false

namespace ETL

/-- Python string truthiness for an optional field: present and non-empty. -/
def truthy : Option String → Bool
  | none => false
  | some s => s ≠ ""

/-- Python's `str.lower()`; character-wise lowering (agrees with Python on
the ASCII country names at issue), written structurally over `String.data`
so that it evaluates in the kernel. -/
def pyLower (s : String) : String :=
  String.mk (s.data.map Char.toLower)

/-- The hardcoded Namibia test used throughout cloudflare.py:
`country_name and country_name.lower() == "namibia"`. -/
def namibiaName : Option String → Bool
  | none => false
  | some s => pyLower s = "namibia"

/-- Python's final `code if code else default` coercion of the resolved
country-code variable to a string. -/
def pyStr (c : Option String) (dflt : String) : String :=
  match c with
  | none => dflt
  | some s => if s = "" then dflt else s

/-- Row-level country identity resolution of `process_top_locations_data`
(cloudflare.py lines 84-98); `process_quality_data` (lines 111-125) contains
the syntactically identical resolution block. `lookup` models
`pycountry.countries.search_fuzzy(name)[0].alpha_2`, `none` standing for the
`LookupError` branch which assigns `"Unknown"`. -/
def resolveTop (lookup : String → Option String)
    (code name : Option String) : String :=
  let code1 :=
    if truthy code then code
    else if namibiaName name then some "NA"
    else if truthy name then some ((lookup (name.getD "")).getD "Unknown")
    else code
  pyStr code1 "Unknown"

/-- Row-level country identity resolution of the attack normalizers
(`process_layer3_attacks_data` lines 152-156 and the three role branches of
`process_layer7_attacks_data`): only the Namibia special case, then the
falsy-to-"Unknown" coercion — no fuzzy name lookup. -/
def resolveAttack (code name : Option String) : String :=
  let code1 :=
    if !truthy code && namibiaName name then some "NA" else code
  pyStr code1 "Unknown"

/-- Modelled from the spec's words (§4.1), for the refinement comparison of
claim C2: the claimed four-step resolution algorithm — return a present
non-blank code unchanged, else the Namibia exception, else a fuzzy name
lookup whose code is returned on success, else (or on lookup failure)
`"Unknown"`. -/
def resolveSpecAlgorithm (lookup : String → Option String)
    (code name : Option String) : String :=
  if truthy code then code.getD ""
  else if namibiaName name then "NA"
  else if truthy name then (lookup (name.getD "")).getD "Unknown"
  else "Unknown"

example : resolveTop (fun _ => none) (some "US") (some "x") = "US" := by decide
example : resolveTop (fun _ => none) none (some "NaMiBiA") = "NA" := by decide
example : resolveTop (fun _ => some "FR") none (some "France") = "FR" := by decide
example : resolveTop (fun _ => none) none none = "Unknown" := by decide
example : resolveAttack none (some "France") = "Unknown" := by decide

/-! ## Attack aggregation (process_layer3_attacks_data / process_layer7_attacks_data) -/

/-- One attack event, after per-row role extraction: the resolved country
code, the raw country name of that role, and `item.get("value", 0)`. -/
structure Event where
  code : String
  name : Option String
  value : Int
deriving Repr, DecidableEq

/-- One row of an aggregated attack table: `aggregated[code]` in the Python
dict, i.e. `{country_code_iso2, country_name, value_key}`. -/
structure AggRow where
  code : String
  name : Option String
  value : Int
deriving Repr, DecidableEq

/-- One iteration of the accumulation loop: `if code in aggregated:
aggregated[code][value_key] += value else: aggregated[code] = fresh row`.
The accumulator is the dict in insertion order; a dict holds at most one
entry per key, so updating the first matching row is exactly the dict
update, and a fresh key is appended at the end. -/
def addEvent : List AggRow → String → Option String → Int → List AggRow
  | [], c, n, v => [⟨c, n, v⟩]
  | r :: rs, c, n, v =>
    if r.code = c then { r with value := r.value + v } :: rs
    else r :: addEvent rs c n v

/-- The whole accumulation loop followed by `list(aggregated.values())`. -/
def aggregateEvents (evs : List Event) : List AggRow :=
  evs.foldl (fun acc e => addEvent acc e.code e.name e.value) []

/-- Number of output rows carrying a given country code. -/
def countCode (c : String) : List AggRow → Nat
  | [] => 0
  | r :: rs => (if r.code = c then 1 else 0) + countCode c rs

/-- Sum of the metric column over output rows carrying a given code. -/
def sumCode (c : String) : List AggRow → Int
  | [] => 0
  | r :: rs => (if r.code = c then r.value else 0) + sumCode c rs

/-- Sum of the metric column over all output rows. -/
def totalValue : List AggRow → Int
  | [] => 0
  | r :: rs => r.value + totalValue rs

/-- Sum of the value field over the input events resolving to a given code. -/
def eventSum (c : String) : List Event → Int
  | [] => 0
  | e :: es => (if e.code = c then e.value else 0) + eventSum c es

/-- Sum of the value field over all input events. -/
def eventTotal : List Event → Int
  | [] => 0
  | e :: es => e.value + eventTotal es

/-- Whether some input event resolves to a given code. -/
def hasCode (c : String) : List Event → Bool
  | [] => false
  | e :: es => if e.code = c then true else hasCode c es

theorem addEvent_sumCode (acc : List AggRow) (c' c : String) (n : Option String)
    (v : Int) :
    sumCode c' (addEvent acc c n v) = sumCode c' acc + (if c = c' then v else 0) := by
  induction acc with
  | nil =>
    by_cases h : c = c' <;> simp [addEvent, sumCode, h]
  | cons r rs ih =>
    by_cases h1 : r.code = c
    · subst h1
      by_cases h2 : r.code = c'
      all_goals simp [addEvent, sumCode, h2]
      all_goals ring
    · simp [addEvent, h1, sumCode, ih]
      ring

theorem addEvent_countCode (acc : List AggRow) (c' c : String) (n : Option String)
    (v : Int) :
    countCode c' (addEvent acc c n v) =
      if c = c' ∧ countCode c acc = 0 then countCode c' acc + 1
      else countCode c' acc := by
  induction acc with
  | nil =>
    by_cases h : c = c' <;> simp [addEvent, countCode, h]
  | cons r rs ih =>
    by_cases h1 : r.code = c
    · subst h1
      have hne : ¬ countCode r.code (r :: rs) = 0 := by simp [countCode]
      simp only [addEvent, if_pos rfl, countCode]
      simp only [countCode] at hne
      simp [hne]
    · simp only [addEvent, if_neg h1, countCode, ih]
      by_cases hcc : c = c'
      · subst hcc
        simp [h1]
      · simp [hcc]

theorem addEvent_totalValue (acc : List AggRow) (c : String) (n : Option String)
    (v : Int) :
    totalValue (addEvent acc c n v) = totalValue acc + v := by
  induction acc with
  | nil => simp [addEvent, totalValue]
  | cons r rs ih =>
    by_cases h1 : r.code = c <;> simp [addEvent, h1, totalValue, ih] <;> ring

theorem addEvent_mem_code (acc : List AggRow) (c : String) (n : Option String)
    (v : Int) (r : AggRow) (h : r ∈ addEvent acc c n v) :
    r.code = c ∨ ∃ a ∈ acc, r.code = a.code := by
  induction acc with
  | nil =>
    simp [addEvent] at h
    simp [h]
  | cons a as ih =>
    by_cases h1 : a.code = c
    · simp [addEvent, h1] at h
      rcases h with h | h
      · subst h; simp [h1]
      · right; exact ⟨r, by simp [h], rfl⟩
    · simp [addEvent, h1] at h
      rcases h with h | h
      · subst h; right; exact ⟨r, by simp, rfl⟩
      · rcases ih h with h2 | ⟨a', ha', h2⟩
        · exact Or.inl h2
        · exact Or.inr ⟨a', by simp [ha'], h2⟩

theorem aggregate_go_sumCode (c' : String) (evs : List Event) :
    ∀ acc : List AggRow,
      sumCode c' (evs.foldl (fun acc e => addEvent acc e.code e.name e.value) acc) =
        sumCode c' acc + eventSum c' evs := by
  induction evs with
  | nil => intro acc; simp [eventSum]
  | cons e es ih =>
    intro acc
    simp only [List.foldl_cons, ih, addEvent_sumCode, eventSum]
    ring

theorem aggregate_go_totalValue (evs : List Event) :
    ∀ acc : List AggRow,
      totalValue (evs.foldl (fun acc e => addEvent acc e.code e.name e.value) acc) =
        totalValue acc + eventTotal evs := by
  induction evs with
  | nil => intro acc; simp [eventTotal]
  | cons e es ih =>
    intro acc
    simp only [List.foldl_cons, ih, addEvent_totalValue, eventTotal]
    ring

theorem aggregate_go_countCode (c : String) (evs : List Event) :
    ∀ acc : List AggRow, (∀ d, countCode d acc ≤ 1) →
      countCode c (evs.foldl (fun acc e => addEvent acc e.code e.name e.value) acc) =
        if countCode c acc = 1 ∨ hasCode c evs = true then 1 else 0 := by
  induction evs with
  | nil =>
    intro acc hle
    have hc := hle c
    simp only [List.foldl_nil, hasCode, Bool.false_eq_true, or_false]
    split_ifs with h
    · exact h
    · omega
  | cons e es ih =>
    intro acc hle
    have hstep : ∀ d, countCode d (addEvent acc e.code e.name e.value) ≤ 1 := by
      intro d
      have h1 := hle d
      rw [addEvent_countCode]
      split_ifs with h
      · rcases h with ⟨heq, h0⟩
        subst heq
        omega
      · exact h1
    have h2 := hle e.code
    simp only [List.foldl_cons]
    rw [ih _ hstep, addEvent_countCode]
    by_cases hc : e.code = c
    · subst hc
      have hval :
          (if e.code = e.code ∧ countCode e.code acc = 0 then countCode e.code acc + 1
            else countCode e.code acc) = 1 := by
        by_cases h0 : countCode e.code acc = 0
        · simp [h0]
        · have hcond : ¬ (e.code = e.code ∧ countCode e.code acc = 0) := by simp [h0]
          rw [if_neg hcond]
          omega
      rw [hval]
      simp [hasCode]
    · have hval :
          (if e.code = c ∧ countCode e.code acc = 0 then countCode c acc + 1
            else countCode c acc) = countCode c acc := by
        simp [hc]
      rw [hval]
      simp only [hasCode, if_neg hc]

theorem aggregateEvents_sumCode (c : String) (evs : List Event) :
    sumCode c (aggregateEvents evs) = eventSum c evs := by
  simpa [aggregateEvents, sumCode] using aggregate_go_sumCode c evs []

theorem aggregateEvents_totalValue (evs : List Event) :
    totalValue (aggregateEvents evs) = eventTotal evs := by
  simpa [aggregateEvents, totalValue] using aggregate_go_totalValue evs []

theorem aggregateEvents_countCode (c : String) (evs : List Event) :
    countCode c (aggregateEvents evs) = if hasCode c evs = true then 1 else 0 := by
  have := aggregate_go_countCode c evs [] (fun d => by simp [countCode])
  simpa [aggregateEvents, countCode] using this

/-! ## Payload models and the dataset normalizers -/

/-- Association lookup, modelling `d.get(k)` / `k in d` on a decoded JSON
object. -/
def lookupKey {α : Type} (k : String) (l : List (String × α)) : Option α :=
  (l.find? (fun p => p.1 = k)).map (·.2)

/-- One record of an attack payload. The country-code fields are
`Option (Option String)`: the outer layer is key presence (tested by
`"targetCountryAlpha2" in item` / `"originCountryAlpha2" in item`), the
inner the possibly-null value returned by `item.get(...)`. -/
structure AttackItem where
  originCode : Option (Option String)
  originName : Option String
  targetCode : Option (Option String)
  targetName : Option String
  value : Option Int
deriving Repr, DecidableEq

/-- Per-record event extraction for the origin role: resolved code, raw
name, `item.get("value", 0)`. -/
def originEvent (i : AttackItem) : Event :=
  ⟨resolveAttack i.originCode.join i.originName, i.originName, i.value.getD 0⟩

/-- Per-record event extraction for the target role. -/
def targetEvent (i : AttackItem) : Event :=
  ⟨resolveAttack i.targetCode.join i.targetName, i.targetName, i.value.getD 0⟩

/-- Role detection and event extraction of `process_layer3_attacks_data`:
`is_target = "targetCountryAlpha2" in data[name_key][0]` selects the column
pair for every record. -/
def layer3Events : List AttackItem → List Event
  | [] => []
  | first :: rest =>
    if first.targetCode.isSome then (first :: rest).map targetEvent
    else (first :: rest).map originEvent

/-- Model of `process_layer3_attacks_data` (cloudflare.py lines 136-167). The
`value_key` argument only names the metric column and is omitted.
An absent/empty payload or a missing `name_key` returns an empty table;
a present `name_key` holding an *empty* record list reaches
`data.get(name_key, [{}])[0]`, whose default never applies because the key
was just tested present, so the subscript raises `IndexError` — modelled by
`Except.error`. -/
def process_layer3_attacks_data (data : Option (List (String × List AttackItem)))
    (nameKey : String) : Except String (List AggRow) :=
  match data with
  | none => Except.ok []
  | some d =>
    match lookupKey nameKey d with
    | none => Except.ok []
    | some items =>
      match items with
      | [] => Except.error "list index out of range"
      | _ :: _ => Except.ok (aggregateEvents (layer3Events items))

/-- The three role branches of `process_layer7_attacks_data` (lines
169-265): origin-only and target-only each produce one aggregated table;
both roles present produce an origin-keyed and a target-keyed table from
the same record list. The same first-record subscript raises on an empty
record list. -/
def process_layer7_attacks_data (data : Option (List (String × List AttackItem)))
    (nameKey : String) :
    Except String (List AggRow ⊕ List AggRow × List AggRow) :=
  match data with
  | none => Except.ok (Sum.inl [])
  | some d =>
    match lookupKey nameKey d with
    | none => Except.ok (Sum.inl [])
    | some items =>
      match items with
      | [] => Except.error "list index out of range"
      | first :: _ =>
        let hasOrigin := first.originCode.isSome
        let hasTarget := first.targetCode.isSome
        if hasOrigin && !hasTarget then
          Except.ok (Sum.inl (aggregateEvents (items.map originEvent)))
        else if hasTarget && !hasOrigin then
          Except.ok (Sum.inl (aggregateEvents (items.map targetEvent)))
        else
          Except.ok (Sum.inr
            (aggregateEvents (items.map originEvent),
             aggregateEvents (items.map targetEvent)))

/-- One record of a location-list or quality payload; fields are
presence-aware for `clientCountryAlpha2`, `clientCountryName` and `value`
because `processors.py` uses `item.get(key, default)`, which substitutes the
default only when the key is absent. -/
structure LocItem where
  alpha2 : Option (Option String)
  name : Option (Option String)
  value : Option (Option Int)
deriving Repr, DecidableEq

/-- Output row of `process_top_locations_data` (cloudflare.py): the code is
always a string after resolution. -/
structure CRow where
  code : String
  name : Option String
  value : Option Int
deriving Repr, DecidableEq

/-- Model of `process_top_locations_data` (cloudflare.py lines 77-102): guard on
missing payload / missing `name_key`, then per record the country identity
resolution and `value_key: item.get("value")`. -/
def process_top_locations_data (lookup : String → Option String)
    (data : Option (List (String × List LocItem))) (nameKey : String) :
    List CRow :=
  match data with
  | none => []
  | some d =>
    match lookupKey nameKey d with
    | none => []
    | some items =>
      items.map (fun i =>
        { code := resolveTop lookup i.alpha2.join i.name.join
          name := i.name.join
          value := i.value.join })

/-- Output row of `process_top_locations` (network_data_etl processors.py):
every cell keeps its possibly-null decoded value, because `item.get(key,
default)` only substitutes on an absent key. -/
structure PRow where
  code : Option String
  name : Option String
  value : Option Int
deriving Repr, DecidableEq

/-- Model of `item.get(key, default)` for a presence-aware string field. -/
def getStrD (f : Option (Option String)) (dflt : String) : Option String :=
  match f with
  | none => some dflt
  | some v => v

/-- Model of `item.get(key, default)` for a presence-aware numeric field. -/
def getIntD (f : Option (Option Int)) (dflt : Int) : Option Int :=
  match f with
  | none => some dflt
  | some v => v

/-- Model of `process_top_locations` (network_data_etl/etl/transform/processors.py
lines 3-15): no resolution step, only `item.get(key, default)` per field. -/
def process_top_locations (data : Option (List (String × List LocItem))) :
    List PRow :=
  match data with
  | none => []
  | some d =>
    match lookupKey "main" d with
    | none => []
    | some items =>
      items.map (fun i =>
        { code := getStrD i.alpha2 "Unknown"
          name := getStrD i.name "Unknown"
          value := getIntD i.value 0 })

/-- One record of the quality payload with its six numeric sub-metrics. -/
structure QualityItem where
  alpha2 : Option String
  name : Option String
  bandwidthDownload : Option Int
  bandwidthUpload : Option Int
  latencyIdle : Option Int
  latencyLoaded : Option Int
  jitterIdle : Option Int
  jitterLoaded : Option Int
deriving Repr, DecidableEq

/-- Output row of `process_quality_data`. -/
structure QRow where
  code : String
  name : Option String
  bandwidthDownload : Option Int
  bandwidthUpload : Option Int
  latencyIdle : Option Int
  latencyLoaded : Option Int
  jitterIdle : Option Int
  jitterLoaded : Option Int
deriving Repr, DecidableEq

/-- Model of `process_quality_data` (cloudflare.py lines 104-134): the resolution
block is syntactically identical to the one in `process_top_locations_data`
(`resolveTop`); six metric columns are copied per row. -/
def process_quality_data (lookup : String → Option String)
    (data : Option (List (String × List QualityItem))) : List QRow :=
  match data with
  | none => []
  | some d =>
    match lookupKey "top_0" d with
    | none => []
    | some items =>
      items.map (fun i =>
        { code := resolveTop lookup i.alpha2 i.name
          name := i.name
          bandwidthDownload := i.bandwidthDownload
          bandwidthUpload := i.bandwidthUpload
          latencyIdle := i.latencyIdle
          latencyLoaded := i.latencyLoaded
          jitterIdle := i.jitterIdle
          jitterLoaded := i.jitterLoaded })

/-- One entry of an annotation's `locationsDetails` list: `loc["code"]` is
subscripted directly (assumed present), `loc.get("name", "Unknown")` is
presence-aware. -/
structure OutageDetail where
  code : String
  name : Option (Option String)
deriving Repr, DecidableEq

/-- One annotation record of the outages payload: both lists are fetched
with `annotation.get(key, [])`. -/
structure OutageItem where
  locations : Option (List String)
  locationsDetails : Option (List OutageDetail)
deriving Repr, DecidableEq

/-- One row of the outages table before grouping. -/
structure ORow where
  code : String
  name : Option String
  outages : Int
deriving Repr, DecidableEq

/-- The flat (annotation, location) rows of `process_outages_data` (lines
271-280): the location code is copied verbatim — no resolution, no
falsy-to-"Unknown" replacement — the name comes from the matching details
entry (default "Unknown"), and each event counts 1. -/
def outageRows (items : List OutageItem) : List ORow :=
  (items.map (fun a =>
    (a.locations.getD []).map (fun loc =>
      { code := loc
        name :=
          match (a.locationsDetails.getD []).find? (fun l => l.code = loc) with
          | some l => getStrD l.name "Unknown"
          | none => some "Unknown"
        outages := (1 : Int) }))).flatten

/-- One step of grouping by the (code, name) key pair, as the pandas
groupby-sum: one accumulator per distinct pair, in first-appearance order
(pandas additionally sorts the group keys — a row-order difference no
claimed property touches). -/
def addOutage : List ORow → String → Option String → Int → List ORow
  | [], c, n, v => [⟨c, n, v⟩]
  | r :: rs, c, n, v =>
    if r.code = c ∧ r.name = n then { r with outages := r.outages + v } :: rs
    else r :: addOutage rs c n v

/-- Model of `groupby(["country_code_iso2", "country_name"],
as_index=False).sum()`: pandas drops any row whose name key is NaN
(groupby default dropna), then sums per (code, name) pair. -/
def groupOutages (rows : List ORow) : List ORow :=
  (rows.filter (fun r => r.name.isSome)).foldl
    (fun acc r => addOutage acc r.code r.name r.outages) []

/-- Model of `process_outages_data` (cloudflare.py lines 267-283): absent
payload or missing "annotations" key yields an empty table; otherwise the
flat rows are built and grouped — but when no (annotation, location) pair
exists, `pd.DataFrame([])` has no columns and the groupby on
`country_code_iso2` raises KeyError, modelled by `Except.error`. -/
def process_outages_data (data : Option (List (String × List OutageItem))) :
    Except String (List ORow) :=
  match data with
  | none => Except.ok []
  | some d =>
    match lookupKey "annotations" d with
    | none => Except.ok []
    | some items =>
      match outageRows items with
      | [] => Except.error "KeyError: country_code_iso2"
      | r :: rs => Except.ok (groupOutages (r :: rs))

/-! ## Warehouse merger (update_master_warehouse) -/

/-- One row of a persisted normalized dataset as the merger reads it back:
canonical key, name, and the dataset's metric cells as (column, value)
pairs. The legacy `target_country_code_iso2` rename (lines 569-571) and
the superseded-raw-column drops (lines 539-548) rename or remove metric
columns before this representation and never touch the key column. -/
structure DRow where
  code : String
  name : Option String
  metrics : List (String × Int)
deriving Repr, DecidableEq

/-- One row of the running master table: key, name (`none` for rows joined
in from a non-base dataset, where the outer join leaves NaN), accumulated
metric cells. -/
structure MRow where
  code : String
  name : Option String
  metrics : List (String × Int)
deriving Repr, DecidableEq

/-- First-occurrence deduplication of (code, name) pairs, modelling
`[["country_code_iso2", "country_name"]].drop_duplicates()`. -/
def dedupPairs (seen : List (String × Option String)) :
    List (String × Option String) → List (String × Option String)
  | [] => []
  | p :: ps =>
    if p ∈ seen then dedupPairs seen ps else p :: dedupPairs (p :: seen) ps

/-- The row of the running master joined against one dataset: a dataset row
with the same key contributes its metric cells. -/
def joinRow (d : List DRow) (r : MRow) : MRow :=
  match d.find? (fun x => x.code = r.code) with
  | some x => { r with metrics := r.metrics ++ x.metrics }
  | none => r

/-- Outer join of the running master with one dataset on the key column
(lines 575-580): matched master rows gain the dataset's metric cells,
unmatched master rows survive, and dataset-only keys are appended with a
missing name (the join brings no `country_name` column along). -/
def mergeOne (m : List MRow) (d : List DRow) : List MRow :=
  m.map (joinRow d) ++
    ((d.filter (fun x => !(m.any (fun r => r.code = x.code)))).map
      (fun x => { code := x.code, name := none, metrics := x.metrics }))

/-- The column-level guard `metric_cols = [c for c in df.columns if c not
in [key, name]]` for a non-empty uniform-column table: a metric column
exists iff the first row carries metric cells. -/
def hasMetrics : List DRow → Bool
  | [] => false
  | r :: _ => !r.metrics.isEmpty

/-- The per-dataset merge step (lines 567-587): datasets with metric
columns are outer-joined; a dataset without metric columns is skipped
unless named `internet_quality`, whose index-merge branch agrees with the
outer join on keys (and is unreachable for the six-metric quality table). -/
def mergeStep (m : List MRow) (p : String × List DRow) : List MRow :=
  if hasMetrics p.2 then mergeOne m p.2
  else if p.1 = "internet_quality" then mergeOne m p.2
  else m

/-- Base-table selection and key-space seeding (lines 564-565): prefer
`http_requests_total`, else the first dataset; deduplicate its (code, name)
pairs and start with no metric cells. -/
def masterBase : List (String × List DRow) → List MRow
  | [] => []
  | d0 :: rest =>
    let base := ((((d0 :: rest).find? (fun p => p.1 = "http_requests_total")).getD d0)).2
    (dedupPairs [] (base.map (fun r => (r.code, r.name)))).map
      (fun p => { code := p.1, name := p.2, metrics := [] })

/-- The merge loop over every available dataset, the base included. -/
def mergeAll (ds : List (String × List DRow)) : List MRow :=
  ds.foldl mergeStep (masterBase ds)

/-- The whole-table Namibia enforcement (lines 592-596): every row whose
name lowers to "namibia" has its key overwritten with "NA". `str.lower()`
of a NaN name is NaN and never matches. The timestamp stamp and the final
column reordering (lines 589-599) add a run-constant column and permute
columns; they do not touch keys, names or metric cells. -/
def namibiaFixRow (r : MRow) : MRow :=
  if namibiaName r.name then { r with code := "NA" } else r

/-- The finished master table of `update_master_warehouse`. -/
def masterTable (ds : List (String × List DRow)) : List MRow :=
  (mergeAll ds).map namibiaFixRow

/-- The key column of the master table. -/
def keys (t : List MRow) : List String :=
  t.map (fun r => r.code)

/-- Read outcome of one persisted dataset file (lines 531-558):
`EmptyDataError` and any other read exception are logged and skipped
(`failed`); a parsed table is kept only when non-empty. -/
inductive ReadResult where
  | failed
  | table (rows : List DRow)
deriving Repr, DecidableEq

/-- Dataset discovery and collection (lines 529-558). -/
def collectDatasets (files : List (String × ReadResult)) :
    List (String × List DRow) :=
  files.filterMap (fun p =>
    match p.2 with
    | ReadResult.failed => none
    | ReadResult.table rows => if rows.isEmpty then none else some (p.1, rows))

/-- Model of `update_master_warehouse` (lines 526-600): `none` models the early
return with no output written when zero datasets survive collection
(lines 560-562); otherwise the merged master table is written. -/
def update_master_warehouse (files : List (String × ReadResult)) :
    Option (List MRow) :=
  let all := collectDatasets files
  if all.isEmpty then none else some (masterTable all)

/-! ## Code-system projection and the regional warehouse -/

/-- A master-warehouse row as `convert_to_iso3` re-reads it from the
stored CSV (the post-read view): the key and name may be missing after the
outer join — or may have parsed as NaN on the read, which is how a stored
"NA" code arrives — and metric cells may be NaN. -/
structure WRow where
  iso2 : Option String
  name : Option String
  metrics : List (Option Int)
deriving Repr, DecidableEq

/-- Model of `get_iso3` (cloudflare.py lines 614-636): the Namibia name exception
first, else the alternate code derived from the canonical code via the
identity service (`toA3` models `pycountry.countries.get(alpha_2=...)`),
`"Unknown"` for missing/unknown codes and failed derivations. -/
def get_iso3 (toA3 : String → Option String) (iso2 : Option String)
    (name : Option String) : String :=
  match name with
  | none =>
    match iso2 with
    | none => "Unknown"
    | some c => if c = "Unknown" then "Unknown" else (toA3 c).getD "Unknown"
  | some n =>
    if pyLower n = "namibia" then "NAM"
    else
      match iso2 with
      | none => "Unknown"
      | some c => if c = "Unknown" then "Unknown" else (toA3 c).getD "Unknown"

/-- A projected row: the alternate code column is always a computed
string. -/
structure IRow where
  iso3 : String
  iso2 : Option String
  name : Option String
  metrics : List (Option Int)
deriving Repr, DecidableEq

/-- The default `na_values` strings of `pd.read_csv`: any stored cell equal
to one of these parses as NaN on every re-read. Namibia's canonical code
"NA" is in the list. -/
def PANDAS_NA_VALUES : List String :=
  ["", "#N/A", "#N/A N/A", "#NA", "-1.#IND", "-1.#QNAN", "-NaN", "-nan",
   "1.#IND", "1.#QNAN", "<NA>", "N/A", "NA", "NULL", "NaN", "None", "n/a",
   "nan", "null"]

/-- One string cell through the `to_csv`/`read_csv` round trip: a missing
value is written as an empty cell and read back as NaN; a stored string in
the default `na_values` list also reads back as NaN. -/
def naParse (v : Option String) : Option String :=
  match v with
  | none => none
  | some s => if s ∈ PANDAS_NA_VALUES then none else some s

/-- One regional-table row through the stored-CSV round trip that feeds
every regional stage (`extract_african_countries`,
`african_country_name_updater`, `african_country_nan_filler` each begin
with `pd.read_csv`): the string columns pass through `naParse` — so a
stored "NA" canonical code arrives as missing. The `country_code_iso3`
column holds three-letter codes or "Unknown", never an `na_values` string,
and the numeric columns re-read their stored numbers, so both re-read
unchanged. -/
def readBackRow (r : IRow) : IRow :=
  { r with iso2 := naParse r.iso2, name := naParse r.name }

/-- Model of `convert_to_iso3` rowwise (lines 638-640): compute the alternate code,
then the whole-column consistency repair forcing `country_code_iso2` to
"NA" wherever the alternate code is "NAM". -/
def convert_to_iso3_row (toA3 : String → Option String) (w : WRow) : IRow :=
  let i3 := get_iso3 toA3 w.iso2 w.name
  { iso3 := i3
    iso2 := if i3 = "NAM" then some "NA" else w.iso2
    name := w.name
    metrics := w.metrics }

/-- Model of `convert_to_iso3` on the whole table; the column reordering of line
642-643 is presentation. -/
def convert_to_iso3 (toA3 : String → Option String) (t : List WRow) :
    List IRow :=
  t.map (convert_to_iso3_row toA3)

/-- The region's static membership list (`AFRICAN_COUNTRIES_ISO3`,
cloudflare.py lines 38-44). -/
def AFRICAN_COUNTRIES_ISO3 : List String :=
  ["DZA", "AGO", "BEN", "BWA", "BFA", "BDI", "CMR", "CPV", "CAF", "TCD",
   "COM", "COG", "COD", "DJI", "EGY", "GNQ", "ERI", "SWZ", "ETH", "GAB",
   "GMB", "GHA", "GIN", "GNB", "CIV", "KEN", "LSO", "LBR", "LBY", "MDG",
   "MWI", "MLI", "MRT", "MUS", "MAR", "MOZ", "NAM", "NER", "NGA", "RWA",
   "STP", "SEN", "SYC", "SLE", "SOM", "ZAF", "SSD", "SDN", "TZA", "TGO",
   "TUN", "UGA", "ZMB", "ZWE"]

/-- The NAM consistency re-enforcement of `extract_african_countries`
(lines 684-687). -/
def extract_african_row_fix (r : IRow) : IRow :=
  if r.iso3 = "NAM" then { r with iso2 := some "NA" } else r

/-- Model of `extract_african_countries` (lines 670-690): re-read the
stored projected table (where a stored "NA" code parses as missing), then
the membership filter on the alternate code, then the NAM consistency fix
on the surviving rows. -/
def extract_african_countries (t : List IRow) : List IRow :=
  (((t.map readBackRow).filter
    (fun r => r.iso3 ∈ AFRICAN_COUNTRIES_ISO3))).map extract_african_row_fix

/-- Model of `get_country_name` (lines 702-714): rebuild the name from the
alternate code via the identity service (`nameOf` models
`pycountry.countries.get(alpha_3=...)`). -/
def get_country_name (nameOf : String → Option String) (iso3 : String) :
    String :=
  if iso3 = "Unknown" then "Unknown" else (nameOf iso3).getD "Unknown"

/-- Model of `african_country_name_updater` rowwise (lines 694-729): regenerate
`country_name` from `country_code_iso3` for every row, then the Namibia
special case forcing name "Namibia" and iso2 "NA" on NAM rows. -/
def updaterRow (nameOf : String → Option String) (r : IRow) : IRow :=
  let r1 := { r with name := some (get_country_name nameOf r.iso3) }
  if r.iso3 = "NAM" then { r1 with name := some "Namibia", iso2 := some "NA" }
  else r1

/-- The name-regeneration repair pass on the regional table: the function
re-reads the stored table (`pd.read_csv`, where a stored "NA" code parses
as missing), transforms every row, and writes the result back. -/
def african_country_name_updater (nameOf : String → Option String)
    (t : List IRow) : List IRow :=
  (t.map readBackRow).map (updaterRow nameOf)

/-- The in-memory transform of the NaN-to-zero fill on the frame the
function holds after its read: every missing cell of a numeric (float/int)
column becomes 0; the string columns (codes, name) are object dtype and
are not filled — in particular a code that the preceding read already
turned into NaN stays NaN and is written back as an empty cell. -/
def fillRow (r : IRow) : IRow :=
  { r with metrics := r.metrics.map (fun c => some (c.getD 0)) }

/-- Model of `african_country_nan_filler` (lines 833-854): re-read the
stored regional table (where a stored "NA" code parses as missing — this
pass has no Namibia fix to restore it), return an empty table unchanged
(early return before saving), otherwise fill every NaN in the numeric
columns with 0 and write back. -/
def african_country_nan_filler (t : List IRow) : List IRow :=
  if t.isEmpty then t else (t.map readBackRow).map fillRow

/-- The regional stage chain of `main()` (lines 887-891): projection of the
re-read master, African filter, name repair, NaN fill — each later stage
re-reading the table the previous stage stored. -/
def regional_pipeline (toA3 nameOf : String → Option String)
    (master : List WRow) : List IRow :=
  african_country_nan_filler
    (african_country_name_updater nameOf
      (extract_african_countries (convert_to_iso3 toA3 master)))

/-! ## Merger key lemmas -/

theorem joinRow_code (d : List DRow) (r : MRow) : (joinRow d r).code = r.code := by
  unfold joinRow
  cases d.find? (fun x => x.code = r.code) <;> rfl

theorem keys_mergeOne_of_mem (m : List MRow) (d : List DRow) (c : String)
    (h : c ∈ keys m) : c ∈ keys (mergeOne m d) := by
  rcases List.mem_map.1 h with ⟨r, hr, rfl⟩
  unfold mergeOne keys
  rw [List.map_append]
  apply List.mem_append_left
  exact List.mem_map.2 ⟨joinRow d r, List.mem_map_of_mem _ hr, joinRow_code d r⟩

theorem keys_mergeOne_of_mem_d (m : List MRow) (d : List DRow) (c : String)
    (h : ∃ x ∈ d, x.code = c) : c ∈ keys (mergeOne m d) := by
  by_cases hm : c ∈ keys m
  · exact keys_mergeOne_of_mem m d c hm
  · rcases h with ⟨x, hx, rfl⟩
    unfold mergeOne keys
    rw [List.map_append]
    apply List.mem_append_right
    apply List.mem_map.2
    refine ⟨{ code := x.code, name := none, metrics := x.metrics }, ?_, rfl⟩
    apply List.mem_map_of_mem
    apply List.mem_filter.2
    refine ⟨hx, ?_⟩
    simp only [Bool.not_eq_eq_eq_not, Bool.not_true, List.any_eq_false]
    intro r hr hcr
    exact hm (List.mem_map.2 ⟨r, hr, of_decide_eq_true hcr⟩)

theorem keys_mergeStep_of_mem (m : List MRow) (p : String × List DRow)
    (c : String) (h : c ∈ keys m) : c ∈ keys (mergeStep m p) := by
  unfold mergeStep
  split_ifs with h1 h2
  · exact keys_mergeOne_of_mem m p.2 c h
  · exact keys_mergeOne_of_mem m p.2 c h
  · exact h

theorem keys_foldl_of_mem (l : List (String × List DRow)) :
    ∀ (m : List MRow) (c : String), c ∈ keys m →
      c ∈ keys (l.foldl mergeStep m) := by
  induction l with
  | nil => intro m c h; exact h
  | cons p ps ih =>
    intro m c h
    exact ih (mergeStep m p) c (keys_mergeStep_of_mem m p c h)

theorem mergeAll_keys_complete (ds : List (String × List DRow))
    (p : String × List DRow) (hp : p ∈ ds) (hmet : hasMetrics p.2 = true)
    (x : DRow) (hx : x ∈ p.2) : x.code ∈ keys (mergeAll ds) := by
  obtain ⟨l1, l2, rfl⟩ := List.append_of_mem hp
  unfold mergeAll
  rw [List.foldl_append, List.foldl_cons]
  apply keys_foldl_of_mem
  have : mergeStep (l1.foldl mergeStep (masterBase (l1 ++ p :: l2))) p =
      mergeOne (l1.foldl mergeStep (masterBase (l1 ++ p :: l2))) p.2 := by
    unfold mergeStep
    rw [if_pos hmet]
  rw [this]
  exact keys_mergeOne_of_mem_d _ p.2 x.code ⟨x, hx, rfl⟩

/-! ## Further helper lemmas -/

theorem pyStr_unknown_ne_empty (c : Option String) : pyStr c "Unknown" ≠ "" := by
  rcases c with _ | s
  · decide
  · show (if s = "" then "Unknown" else s) ≠ ""
    split_ifs with h
    · decide
    · exact h

theorem resolveTop_ne_empty (lookup : String → Option String)
    (code name : Option String) : resolveTop lookup code name ≠ "" :=
  pyStr_unknown_ne_empty _

theorem resolveAttack_ne_empty (code name : Option String) :
    resolveAttack code name ≠ "" :=
  pyStr_unknown_ne_empty _

theorem aggregate_go_mem_code (evs : List Event) :
    ∀ (acc : List AggRow) (r : AggRow),
      r ∈ evs.foldl (fun acc e => addEvent acc e.code e.name e.value) acc →
        (∃ a ∈ acc, r.code = a.code) ∨ (∃ e ∈ evs, r.code = e.code) := by
  induction evs with
  | nil =>
    intro acc r h
    exact Or.inl ⟨r, h, rfl⟩
  | cons e es ih =>
    intro acc r h
    rcases ih _ r h with ⟨a, ha, hc⟩ | ⟨e', he', hc⟩
    · rcases addEvent_mem_code acc e.code e.name e.value a ha with h2 | ⟨a', ha', h2⟩
      · exact Or.inr ⟨e, by simp, by rw [hc, h2]⟩
      · exact Or.inl ⟨a', ha', by rw [hc, h2]⟩
    · exact Or.inr ⟨e', by simp [he'], hc⟩

theorem aggregateEvents_mem_code (evs : List Event) (r : AggRow)
    (h : r ∈ aggregateEvents evs) : ∃ e ∈ evs, r.code = e.code := by
  rcases aggregate_go_mem_code evs [] r h with ⟨a, ha, _⟩ | h2
  · exact absurd ha (List.not_mem_nil a)
  · exact h2

theorem layer3Events_code_ne_empty (items : List AttackItem) (e : Event)
    (h : e ∈ layer3Events items) : e.code ≠ "" := by
  rcases items with _ | ⟨first, rest⟩
  · exact absurd h (List.not_mem_nil e)
  · simp only [layer3Events] at h
    split_ifs at h
    · rcases List.mem_map.1 h with ⟨i, _, rfl⟩
      exact resolveAttack_ne_empty _ _
    · rcases List.mem_map.1 h with ⟨i, _, rfl⟩
      exact resolveAttack_ne_empty _ _

/-- Sum of `item.get("value", 0)` over the records of an attack payload. -/
def itemTotal : List AttackItem → Int
  | [] => 0
  | i :: is => i.value.getD 0 + itemTotal is

theorem eventTotal_map_originEvent (items : List AttackItem) :
    eventTotal (items.map originEvent) = itemTotal items := by
  induction items with
  | nil => rfl
  | cons i is ih => simp [eventTotal, itemTotal, originEvent, ih]

theorem eventTotal_map_targetEvent (items : List AttackItem) :
    eventTotal (items.map targetEvent) = itemTotal items := by
  induction items with
  | nil => rfl
  | cons i is ih => simp [eventTotal, itemTotal, targetEvent, ih]

theorem eventTotal_layer3Events (items : List AttackItem) :
    eventTotal (layer3Events items) = itemTotal items := by
  rcases items with _ | ⟨first, rest⟩
  · rfl
  · simp only [layer3Events]
    split_ifs
    · exact eventTotal_map_targetEvent _
    · exact eventTotal_map_originEvent _

/-- Whether the merger's file loop skips a read outcome (read failure,
empty-file error, or a table with no rows). -/
def skippedRead : ReadResult → Bool
  | ReadResult.failed => true
  | ReadResult.table rows => rows.isEmpty

theorem naParse_idem (v : Option String) : naParse (naParse v) = naParse v := by
  rcases v with _ | s
  · rfl
  · by_cases h : s ∈ PANDAS_NA_VALUES
    · simp [naParse, h]
    · simp [naParse, h]

theorem naParse_na : naParse (some "NA") = none := by decide

theorem naParse_namibia : naParse (some "Namibia") = some "Namibia" := by decide

theorem readBackRow_iso3 (r : IRow) : (readBackRow r).iso3 = r.iso3 := rfl

theorem updaterRow_iso3 (nameOf : String → Option String) (r : IRow) :
    (updaterRow nameOf r).iso3 = r.iso3 := by
  unfold updaterRow
  by_cases h : r.iso3 = "NAM" <;> simp [h]

theorem fillRow_iso3 (r : IRow) : (fillRow r).iso3 = r.iso3 := rfl

/-- The name-regeneration pass, taken with the read that feeds it, is
idempotent on a row: the second read re-loses a stored "NA" but the
updater re-forces it, and a regenerated name is recomputed from the
unchanged iso3 column. -/
theorem updater_read_idem (nameOf : String → Option String) (r : IRow) :
    updaterRow nameOf (readBackRow (updaterRow nameOf (readBackRow r))) =
      updaterRow nameOf (readBackRow r) := by
  by_cases h : r.iso3 = "NAM"
  · simp [updaterRow, readBackRow, h, naParse_na, naParse_namibia]
  · simp [updaterRow, readBackRow, h, naParse_idem]

/-- The NaN fill, taken with the read that feeds it, is idempotent on a
row. -/
theorem fill_read_idem (r : IRow) :
    fillRow (readBackRow (fillRow (readBackRow r))) =
      fillRow (readBackRow r) := by
  unfold fillRow readBackRow
  simp only [List.map_map, naParse_idem]
  have hmap : ∀ l : List (Option Int),
      (l.map ((fun c : Option Int => some (c.getD 0)) ∘
          (fun c : Option Int => some (c.getD 0)))) =
        l.map (fun c : Option Int => some (c.getD 0)) := by
    intro l
    apply List.map_congr_left
    intro c _
    cases c <;> rfl
  rw [hmap]

/-! ## Claim theorems -/

/-- C2, counterexample: the claim quantifies over *every* normalizer, but
the attack normalizers' per-row resolution never attempts the fuzzy name
lookup: with the code absent and the name "France", the claimed algorithm
returns the lookup's code "FR" while the attack normalizers return
"Unknown". -/
theorem c2_counterexample :
    resolveAttack none (some "France") = "Unknown" ∧
      resolveSpecAlgorithm (fun n => if n = "France" then some "FR" else none)
        none (some "France") = "FR" ∧
      ("Unknown" : String) ≠ "FR" :=
  ⟨by decide, by decide, by decide⟩

/-- C2 (amended): the location-list and quality normalizers' per-row
resolution implements exactly the claimed four-step algorithm (for an
identity service returning non-blank codes), while the attack normalizers
implement the algorithm with the fuzzy-lookup step removed, i.e. the same
algorithm under an always-failing lookup. -/
theorem c2_resolution (lookup : String → Option String)
    (hlk : ∀ n c, lookup n = some c → c ≠ "") (code name : Option String) :
    resolveTop lookup code name = resolveSpecAlgorithm lookup code name ∧
      resolveAttack code name = resolveSpecAlgorithm (fun _ => none) code name := by
  constructor
  · unfold resolveTop resolveSpecAlgorithm
    by_cases h1 : truthy code
    · rcases code with _ | s
      · simp [truthy] at h1
      · have hs : s ≠ "" := by simpa [truthy] using h1
        simp [h1, pyStr, hs]
    · by_cases h2 : namibiaName name
      · simp [h1, h2, pyStr]
      · by_cases h3 : truthy name
        · simp only [h1, h2, h3, if_false, if_true, Bool.false_eq_true]
          cases hl : lookup (name.getD "") with
          | none => simp [pyStr]
          | some c =>
            have hc := hlk _ _ hl
            simp [pyStr, hc]
        · rcases code with _ | s
          · simp [h1, h2, h3, pyStr]
          · have hs : s = "" := by
              by_contra hne
              exact h1 (by simp [truthy, hne])
            subst hs
            simp [h1, h2, h3, pyStr]
  · unfold resolveAttack resolveSpecAlgorithm
    by_cases h1 : truthy code
    · rcases code with _ | s
      · simp [truthy] at h1
      · have hs : s ≠ "" := by simpa [truthy] using h1
        simp [h1, pyStr, hs]
    · by_cases h2 : namibiaName name
      · simp [h1, h2, pyStr]
      · by_cases h3 : truthy name
        · rcases code with _ | s
          · simp [h1, h2, h3, pyStr]
          · have hs : s = "" := by
              by_contra hne
              exact h1 (by simp [truthy, hne])
            subst hs
            simp [h1, h2, h3, pyStr]
        · rcases code with _ | s
          · simp [h1, h2, h3, pyStr]
          · have hs : s = "" := by
              by_contra hne
              exact h1 (by simp [truthy, hne])
            subst hs
            simp [h1, h2, h3, pyStr]

/-- Witness for `c2_resolution` at a concrete lookup and row. -/
theorem c2_resolution_witness :
    resolveTop (fun _ => some "FR") none (some "France") =
        resolveSpecAlgorithm (fun _ => some "FR") none (some "France") ∧
      resolveAttack none (some "France") =
        resolveSpecAlgorithm (fun _ => none) none (some "France") :=
  c2_resolution (fun _ => some "FR")
    (fun _ c h => by
      simp only [Option.some.injEq] at h
      subst h
      decide)
    none (some "France")

/-- C3: the attack aggregation groups events by resolved country code with
one accumulator per code — every distinct resolved code yields exactly one
output row whose metric is the sum of its events' values — and on the
payload [(US,1),(US,2),(FR,5)] `process_layer3_attacks_data` produces
exactly the two rows US=3 and FR=5. -/
theorem c3_attack_aggregation :
    (∀ (evs : List Event) (c : String),
        countCode c (aggregateEvents evs) =
            (if hasCode c evs = true then 1 else 0) ∧
          sumCode c (aggregateEvents evs) = eventSum c evs) ∧
      process_layer3_attacks_data
          (some [("top_0",
            [⟨some (some "US"), some "United States", none, none, some 1⟩,
             ⟨some (some "US"), some "United States", none, none, some 2⟩,
             ⟨some (some "FR"), some "France", none, none, some 5⟩])]) "top_0" =
        Except.ok
          [⟨"US", some "United States", 3⟩, ⟨"FR", some "France", 5⟩] := by
  refine ⟨fun evs c =>
    ⟨aggregateEvents_countCode c evs, aggregateEvents_sumCode c evs⟩, ?_⟩
  rfl

/-- C10: attack aggregation preserves the total — the sum of the metric
column over the aggregated output equals the sum of `item.get("value", 0)`
over all input records, for the layer-3 role selection and for both
layer-7 role extractions — and events resolving to "Unknown" accumulate
into at most one "Unknown" row whose metric carries their full sum. -/
theorem c10_aggregation_total (items : List AttackItem) :
    totalValue (aggregateEvents (layer3Events items)) = itemTotal items ∧
      totalValue (aggregateEvents (items.map originEvent)) = itemTotal items ∧
      totalValue (aggregateEvents (items.map targetEvent)) = itemTotal items ∧
      sumCode "Unknown" (aggregateEvents (layer3Events items)) =
        eventSum "Unknown" (layer3Events items) ∧
      countCode "Unknown" (aggregateEvents (layer3Events items)) ≤ 1 := by
  refine ⟨?_, ?_, ?_, aggregateEvents_sumCode _ _, ?_⟩
  · rw [aggregateEvents_totalValue, eventTotal_layer3Events]
  · rw [aggregateEvents_totalValue, eventTotal_map_originEvent]
  · rw [aggregateEvents_totalValue, eventTotal_map_targetEvent]
  · rw [aggregateEvents_countCode]
    split_ifs <;> omega

/-- C5, counterexample: `process_top_locations` (network_data_etl
processors.py) substitutes "Unknown" only when a key is absent, so a record
whose `clientCountryAlpha2` key is present with a null value yields a row
whose country code cell is null. -/
theorem c5_counterexample :
    process_top_locations
        (some [("main", [⟨some none, some (some "France"), some (some 5)⟩])]) =
      [{ code := none, name := some "France", value := some 5 }] ∧
    ∃ r ∈ process_top_locations
        (some [("main", [⟨some none, some (some "France"), some (some 5)⟩])]),
      r.code = none :=
  ⟨rfl, ⟨{ code := none, name := some "France", value := some 5 }, by decide⟩⟩

/-- C5 (amended): the non-empty total-string country-code invariant holds
for the resolving cloudflare normalizers — location-list rows, quality
rows, and the aggregated attack rows of the layer-3 dispatch and of both
layer-7 role extractions — but it fails for the two non-resolving
normalizers: `process_outages_data` copies location codes verbatim with no
falsy replacement (an empty-string location code reaches its output), and
`process_top_locations` in network_data_etl substitutes "Unknown" only for
an *absent* key, so a present-but-null (or empty) code value passes
through unchanged. -/
theorem c5_code_invariant (lookup : String → Option String)
    (data : Option (List (String × List LocItem)))
    (qdata : Option (List (String × List QualityItem))) (nameKey : String)
    (items : List AttackItem)
    (r : CRow) (hr : r ∈ process_top_locations_data lookup data nameKey)
    (q : QRow) (hq : q ∈ process_quality_data lookup qdata)
    (a : AggRow) (ha : a ∈ aggregateEvents (layer3Events items))
    (b : AggRow) (hb : b ∈ aggregateEvents (items.map originEvent))
    (c : AggRow) (hc : c ∈ aggregateEvents (items.map targetEvent)) :
    r.code ≠ "" ∧ q.code ≠ "" ∧ a.code ≠ "" ∧ b.code ≠ "" ∧ c.code ≠ "" ∧
      process_outages_data
          (some [("annotations",
            [{ locations := some [""], locationsDetails := some [] }])]) =
        Except.ok [{ code := "", name := some "Unknown", outages := 1 }] := by
  refine ⟨?_, ?_, ?_, ?_, ?_, rfl⟩
  · rcases data with _ | d
    · exact absurd hr (List.not_mem_nil r)
    · rcases hl : lookupKey nameKey d with _ | items'
      · simp [process_top_locations_data, hl] at hr
      · simp only [process_top_locations_data, hl] at hr
        rcases List.mem_map.1 hr with ⟨i, _, rfl⟩
        exact resolveTop_ne_empty _ _ _
  · rcases qdata with _ | d
    · exact absurd hq (List.not_mem_nil q)
    · rcases hl : lookupKey "top_0" d with _ | items'
      · simp [process_quality_data, hl] at hq
      · simp only [process_quality_data, hl] at hq
        rcases List.mem_map.1 hq with ⟨i, _, rfl⟩
        exact resolveTop_ne_empty _ _ _
  · rcases aggregateEvents_mem_code _ a ha with ⟨e, he, hcode⟩
    rw [hcode]
    exact layer3Events_code_ne_empty items e he
  · rcases aggregateEvents_mem_code _ b hb with ⟨e, he, hcode⟩
    rcases List.mem_map.1 he with ⟨i, _, rfl⟩
    rw [hcode]
    exact resolveAttack_ne_empty _ _
  · rcases aggregateEvents_mem_code _ c hc with ⟨e, he, hcode⟩
    rcases List.mem_map.1 he with ⟨i, _, rfl⟩
    rw [hcode]
    exact resolveAttack_ne_empty _ _

/-- Witness for `c5_code_invariant` at concrete payloads. -/
theorem c5_code_invariant_witness :
    ({ code := "US", name := some "United States", value := some 3 } :
        CRow).code ≠ "" ∧
      ({ code := "US"
         name := some "United States"
         bandwidthDownload := none
         bandwidthUpload := none
         latencyIdle := none
         latencyLoaded := none
         jitterIdle := none
         jitterLoaded := none } : QRow).code ≠ "" ∧
      ({ code := "Unknown", name := none, value := 0 } : AggRow).code ≠ "" ∧
      ({ code := "Unknown", name := none, value := 0 } : AggRow).code ≠ "" ∧
      ({ code := "Unknown", name := none, value := 0 } : AggRow).code ≠ "" ∧
      process_outages_data
          (some [("annotations",
            [{ locations := some [""], locationsDetails := some [] }])]) =
        Except.ok [{ code := "", name := some "Unknown", outages := 1 }] :=
  c5_code_invariant (fun _ => none)
    (some [("main", [⟨some (some "US"), some (some "United States"),
      some (some 3)⟩])])
    (some [("top_0", [⟨some "US", some "United States",
      none, none, none, none, none, none⟩])]) "main"
    [⟨none, none, none, none, none⟩]
    { code := "US", name := some "United States", value := some 3 } (by decide)
    { code := "US", name := some "United States", bandwidthDownload := none
      bandwidthUpload := none, latencyIdle := none, latencyLoaded := none
      jitterIdle := none, jitterLoaded := none } (by decide)
    { code := "Unknown", name := none, value := 0 } (by decide)
    { code := "Unknown", name := none, value := 0 } (by decide)
    { code := "Unknown", name := none, value := 0 } (by decide)

/-- C6, counterexample: a payload whose expected top-level key is present
but maps to an *empty* record list makes the attack normalizer evaluate
`data.get(name_key, [{}])[0]` on an empty list — the default cannot apply
because the key was just tested present — raising `IndexError` instead of
returning an empty table; and a record lacking the expected country fields
is emitted as an "Unknown" row, so the table is not empty. -/
theorem c6_counterexample :
    process_layer3_attacks_data (some [("top_0", [])]) "top_0" =
        Except.error "list index out of range" ∧
      process_layer3_attacks_data
          (some [("top_0", [⟨none, none, none, none, none⟩])]) "top_0" =
        Except.ok [{ code := "Unknown", name := none, value := 0 }] :=
  ⟨rfl, rfl⟩

/-- C6 (amended): the location-list, quality, attack and outages
normalizers all return an empty table for an absent/empty payload or a
missing expected top-level key, without failing; but a present expected
key whose records are structurally empty is not contained — the attack
normalizers raise an index error on an empty record list, the outages
normalizer raises a key error (grouping an empty, column-less frame)
whenever no (annotation, location) pair exists — and attack records
lacking the expected country fields produce rows with the "Unknown"
sentinel code rather than an empty table. -/
theorem c6_shape_handling (lookup : String → Option String)
    (nameKey : String)
    (d : List (String × List AttackItem)) (hd : lookupKey nameKey d = none)
    (d2 : List (String × List AttackItem))
    (hd2 : lookupKey nameKey d2 = some [])
    (dl : List (String × List LocItem)) (hdl : lookupKey nameKey dl = none)
    (dq : List (String × List QualityItem))
    (hdq : lookupKey "top_0" dq = none)
    (dn : List (String × List OutageItem))
    (hdn : lookupKey "annotations" dn = none)
    (dn2 : List (String × List OutageItem)) (items2 : List OutageItem)
    (hdn2 : lookupKey "annotations" dn2 = some items2)
    (hempty : outageRows items2 = []) :
    process_layer3_attacks_data none nameKey = Except.ok [] ∧
      process_layer3_attacks_data (some d) nameKey = Except.ok [] ∧
      process_layer7_attacks_data none nameKey = Except.ok (Sum.inl []) ∧
      process_layer7_attacks_data (some d) nameKey = Except.ok (Sum.inl []) ∧
      process_top_locations_data lookup none nameKey = [] ∧
      process_top_locations_data lookup (some dl) nameKey = [] ∧
      process_quality_data lookup none = [] ∧
      process_quality_data lookup (some dq) = [] ∧
      process_outages_data none = Except.ok [] ∧
      process_outages_data (some dn) = Except.ok [] ∧
      process_layer3_attacks_data (some d2) nameKey =
        Except.error "list index out of range" ∧
      process_layer7_attacks_data (some d2) nameKey =
        Except.error "list index out of range" ∧
      process_outages_data (some dn2) =
        Except.error "KeyError: country_code_iso2" := by
  refine ⟨rfl, ?_, rfl, ?_, rfl, ?_, rfl, ?_, rfl, ?_, ?_, ?_, ?_⟩
  · simp [process_layer3_attacks_data, hd]
  · simp [process_layer7_attacks_data, hd]
  · simp [process_top_locations_data, hdl]
  · simp [process_quality_data, hdq]
  · simp [process_outages_data, hdn]
  · simp [process_layer3_attacks_data, hd2]
  · simp [process_layer7_attacks_data, hd2]
  · simp [process_outages_data, hdn2, hempty]

/-- Witness for `c6_shape_handling` at concrete payloads. -/
theorem c6_shape_handling_witness :
    process_layer3_attacks_data none "top_0" = Except.ok [] ∧
      process_layer3_attacks_data (some [("other", [])]) "top_0" =
        Except.ok [] ∧
      process_layer7_attacks_data none "top_0" = Except.ok (Sum.inl []) ∧
      process_layer7_attacks_data (some [("other", [])]) "top_0" =
        Except.ok (Sum.inl []) ∧
      process_top_locations_data (fun _ => none) none "top_0" = [] ∧
      process_top_locations_data (fun _ => none)
          (some [("other", [])]) "top_0" = [] ∧
      process_quality_data (fun _ => none) none = [] ∧
      process_quality_data (fun _ => none) (some [("other", [])]) = [] ∧
      process_outages_data none = Except.ok [] ∧
      process_outages_data (some [("other", [])]) = Except.ok [] ∧
      process_layer3_attacks_data (some [("top_0", [])]) "top_0" =
        Except.error "list index out of range" ∧
      process_layer7_attacks_data (some [("top_0", [])]) "top_0" =
        Except.error "list index out of range" ∧
      process_outages_data
          (some [("annotations",
            [{ locations := some [], locationsDetails := some [] }])]) =
        Except.error "KeyError: country_code_iso2" :=
  c6_shape_handling (fun _ => none) "top_0"
    [("other", [])] rfl
    [("top_0", [])] rfl
    [("other", [])] rfl
    [("other", [])] rfl
    [("other", [])] rfl
    [("annotations", [{ locations := some [], locationsDetails := some [] }])]
    [{ locations := some [], locationsDetails := some [] }] rfl rfl

/-- C7: the merger returns no master table exactly when zero datasets
survive collection (zero datasets available to merge), and a skipped file
— a read failure, an empty-file error, or an empty table — never affects
the merge of the remaining datasets. -/
theorem c7_zero_datasets (files pre post : List (String × ReadResult))
    (n : String) (e : ReadResult) (he : skippedRead e = true) :
    (update_master_warehouse files = none ↔ collectDatasets files = []) ∧
      update_master_warehouse (pre ++ (n, e) :: post) =
        update_master_warehouse (pre ++ post) := by
  constructor
  · unfold update_master_warehouse
    by_cases h : (collectDatasets files).isEmpty
    · simp [h, List.isEmpty_iff.1 h]
    · simp only [h, if_false, Bool.false_eq_true]
      constructor
      · intro hcontra
        exact absurd hcontra (by simp)
      · intro hcontra
        exact absurd hcontra (by simpa [List.isEmpty_iff] using h)
  · unfold update_master_warehouse
    have hcoll : collectDatasets (pre ++ (n, e) :: post) =
        collectDatasets (pre ++ post) := by
      unfold collectDatasets
      rw [List.filterMap_append, List.filterMap_append, List.filterMap_cons]
      cases e with
      | failed => rfl
      | table rows =>
        have hrows : rows = [] := by
          simpa [skippedRead, List.isEmpty_iff] using he
        subst hrows
        simp
    rw [hcoll]

/-- Witness for `c7_zero_datasets` at concrete file lists. -/
theorem c7_zero_datasets_witness :
    (update_master_warehouse [("a", ReadResult.failed)] = none ↔
        collectDatasets [("a", ReadResult.failed)] = []) ∧
      update_master_warehouse
          ([] ++ ("a", ReadResult.failed) :: []) =
        update_master_warehouse ([] ++ []) :=
  c7_zero_datasets [("a", ReadResult.failed)] [] [] "a" ReadResult.failed rfl

/-- C1, counterexample: the whole-table Namibia enforcement runs *after*
the outer join and overwrites the key of any Namibia-named row, so a
country code carried only by such a row is removed from the master key
set: the single normalized table [{code "XX", name "Namibia", metric 1}]
produces a master table whose key set is ["NA"], not containing "XX". -/
theorem c1_counterexample :
    "XX" ∈ ([⟨"XX", some "Namibia", [("m", 1)]⟩] :
        List DRow).map (fun r => r.code) ∧
      keys (masterTable [("d1", [⟨"XX", some "Namibia", [("m", 1)]⟩])]) =
        ["NA"] ∧
      "XX" ∉ keys (masterTable [("d1", [⟨"XX", some "Namibia", [("m", 1)]⟩])]) := by
  refine ⟨by decide, by decide, by decide⟩

/-- C1 (amended): for normalized dataset tables (each with at least one
metric column), every country code appearing in any dataset appears in the
key set of the pre-enforcement merged table, and survives into the final
master key set unless it was carried by a Namibia-named row, whose key the
final enforcement overwrites with "NA". -/
theorem c1_outer_join_completeness (ds : List (String × List DRow))
    (c : String) (hmet : ∀ p ∈ ds, hasMetrics p.2 = true)
    (hc : ∃ p ∈ ds, ∃ x ∈ p.2, x.code = c) :
    c ∈ keys (masterTable ds) ∨
      ("NA" ∈ keys (masterTable ds) ∧
        ∃ m ∈ mergeAll ds, m.code = c ∧ namibiaName m.name = true) := by
  rcases hc with ⟨p, hp, x, hx, rfl⟩
  have hk := mergeAll_keys_complete ds p hp (hmet p hp) x hx
  rcases List.mem_map.1 hk with ⟨m, hm, hmc⟩
  by_cases hn : namibiaName m.name = true
  · refine Or.inr ⟨?_, m, hm, hmc, hn⟩
    have hmem : namibiaFixRow m ∈ masterTable ds := List.mem_map_of_mem _ hm
    have hcode : (namibiaFixRow m).code = "NA" := by simp [namibiaFixRow, hn]
    exact List.mem_map.2 ⟨namibiaFixRow m, hmem, hcode⟩
  · refine Or.inl ?_
    have hmem : namibiaFixRow m ∈ masterTable ds := List.mem_map_of_mem _ hm
    have hcode : (namibiaFixRow m).code = m.code := by simp [namibiaFixRow, hn]
    exact List.mem_map.2 ⟨namibiaFixRow m, hmem, by rw [hcode, hmc]⟩

/-- Witness for `c1_outer_join_completeness` at a concrete dataset list. -/
theorem c1_outer_join_completeness_witness :
    "US" ∈ keys (masterTable
        [("d", [⟨"US", some "United States", [("m", 2)]⟩])]) ∨
      ("NA" ∈ keys (masterTable
          [("d", [⟨"US", some "United States", [("m", 2)]⟩])]) ∧
        ∃ m ∈ mergeAll [("d", [⟨"US", some "United States", [("m", 2)]⟩])],
          m.code = "US" ∧ namibiaName m.name = true) :=
  c1_outer_join_completeness
    [("d", [⟨"US", some "United States", [("m", 2)]⟩])] "US"
    (by decide) (by decide)

/-- C4 evidence: the claim is the spec's (and the code's own) intent —
every earlier stage forces Namibia's canonical code to "NA" — but the
*last* pass of the run, the NaN filler, re-reads the regional CSV where
the stored "NA" parses as NaN (pandas default `na_values`), has no Namibia
fix, fills only numeric columns, and writes the code back as an empty
cell. On a master row named "Namibia" with raw code "XX": after projection,
filter and name repair the row holds iso3 "NAM" and iso2 "NA", yet the
full chain ends with iso2 missing, not "NA". -/
theorem c4_namibia_code_lost :
    african_country_name_updater (fun _ => none)
        (extract_african_countries (convert_to_iso3 (fun _ => none)
          [⟨some "XX", some "Namibia", [none]⟩])) =
      [⟨"NAM", some "NA", some "Namibia", [none]⟩] ∧
    regional_pipeline (fun _ => none) (fun _ => none)
        [⟨some "XX", some "Namibia", [none]⟩] =
      [⟨"NAM", none, some "Namibia", [some 0]⟩] := by
  constructor
  · rfl
  · rfl

/-- C8, counterexample: the two repair passes compose only through the
stored CSV, where "NA" parses as missing on every read. Running the NaN
fill *after* the name repair loses Namibia's canonical code (nothing
restores it), while the reverse order ends with the repair pass restoring
"NA" — so the passes are not order-independent. -/
theorem c8_counterexample :
    african_country_name_updater (fun _ => none)
        (african_country_nan_filler
          [⟨"NAM", some "NA", some "Namibia", [none]⟩]) =
      [⟨"NAM", some "NA", some "Namibia", [some 0]⟩] ∧
    african_country_nan_filler
        (african_country_name_updater (fun _ => none)
          [⟨"NAM", some "NA", some "Namibia", [none]⟩]) =
      [⟨"NAM", none, some "Namibia", [some 0]⟩] ∧
    ([⟨"NAM", some "NA", some "Namibia", [some 0]⟩] : List IRow) ≠
      [⟨"NAM", none, some "Namibia", [some 0]⟩] := by
  refine ⟨rfl, rfl, by decide⟩

/-- C8 (amended): each regional repair pass, taken together with the CSV
re-read that feeds it (where a stored "NA" canonical code parses as
missing), is idempotent; the two passes are not order-independent. -/
theorem c8_repair_idempotent (nameOf : String → Option String)
    (t : List IRow) :
    african_country_name_updater nameOf
        (african_country_name_updater nameOf t) =
      african_country_name_updater nameOf t ∧
    african_country_nan_filler (african_country_nan_filler t) =
      african_country_nan_filler t := by
  constructor
  · unfold african_country_name_updater
    simp only [List.map_map]
    apply List.map_congr_left
    intro r _
    exact updater_read_idem nameOf r
  · unfold african_country_nan_filler
    rcases t with _ | ⟨r, rs⟩
    · rfl
    · have h2 : (List.map fillRow
          (List.map readBackRow (r :: rs))).isEmpty = false := rfl
      simp only [List.isEmpty_cons, h2, Bool.false_eq_true, if_false,
        List.map_map]
      apply List.map_congr_left
      intro r' _
      exact fill_read_idem r'

/-- C9: after the regional NaN-repair pass, no cell of a numeric column is
null — every missing value has become a value (zero). -/
theorem c9_zero_fill (t : List IRow) (r : IRow) (c : Option Int)
    (hr : r ∈ african_country_nan_filler t) (hc : c ∈ r.metrics) :
    c.isSome = true := by
  unfold african_country_nan_filler at hr
  split_ifs at hr with h
  · rw [List.isEmpty_iff.1 h] at hr
    exact absurd hr (List.not_mem_nil r)
  · rcases List.mem_map.1 hr with ⟨r', _, rfl⟩
    unfold fillRow at hc
    simp only [List.mem_map] at hc
    rcases hc with ⟨c', _, rfl⟩
    rfl

/-- Witness for `c9_zero_fill` at a concrete regional table. -/
theorem c9_zero_fill_witness : (some (0 : Int)).isSome = true :=
  c9_zero_fill [⟨"KEN", some "KE", some "Kenya", [none]⟩]
    ⟨"KEN", some "KE", some "Kenya", [some 0]⟩ (some 0)
    (by decide) (by decide)

end ETL
